import Mathlib

/-!
# NetCanv rendezvous/relay subsystem — verification of the specification

A shallow embedding of the NetCanv matchmaker server
(`netcanv-matchmaker/src/main.rs`), the WallhackD relay's custom-id host
operation (`netcanv-relay/src/whrc.rs`), the peer protocol client
(`src/net/peer.rs`) and the chunk-synchronization state of the paint app
(`src/app/paint.rs`).

Modelling conventions:

* Connections are identified by a stable integer handle (`Nat`), standing
  for the `Arc<BufStream>` pointer identity that `Arc::ptr_eq` compares.
  A connection's network address is given by an ambient `addrOf` map;
  addresses are also `Nat`.
* The weak references in a room's member list are modelled by storing the
  handle and consulting a liveness oracle `alive : Nat → Bool` at fanout
  time (`Weak::upgrade` succeeding).
* `HashMap`s are modelled as association lists with insert-replaces-key
  semantics; `HashSet`s as lists used up to membership.
* `send_packet` returning `Err` is modelled by an oracle
  `sendOk : Nat → Bool` telling, per destination connection, whether the
  send succeeds.  A relay fanout returns the list of deliveries it
  performed together with a flag: `true` for `Ok(())`, `false` for the
  `Err` that the `?` operator propagates out of `Matchmaker::relay`.
* The RNG behind `rand::thread_rng` is an explicit stream
  `draws : Nat → Nat` of the successive `gen_range(0..=MAX_ROOM_ID)`
  results.
-/

namespace NetCanv

/-- Maximum possible room ID (`const MAX_ROOM_ID: u32 = 9999`). -/
def MAX_ROOM_ID : Nat := 9999

/-- The matchmaker wire protocol (`netcanv-protocol/src/matchmaker.rs`,
`enum Packet`).  Addresses are `Nat`, opaque payloads are byte lists. -/
inductive Packet where
  | host
  | roomId (id : Nat)
  | getHost (id : Nat)
  | hostAddress (addr : Nat)
  | clientAddress (addr : Nat)
  | requestRelay (hostAddr : Option Nat)
  | relay (tgt : Option Nat) (data : List Nat)
  | relayed (origin : Nat) (data : List Nat)
  | disconnected (addr : Nat)
  | error (message : String)
  | wallhackDHostWithCustomRoomId (id : Nat)
deriving DecidableEq, Repr

/-- `error_packet` (`netcanv-protocol/src/matchmaker.rs`). -/
def errorPacket (message : String) : Packet := Packet.error message

/-- A packet together with the connection handle it is written to. -/
abbrev Sent := List (Nat × Packet)

/-! ## Association-list model of `HashMap` -/

/-- `HashMap::get`. -/
def lookupA {α : Type} : List (Nat × α) → Nat → Option α
  | [], _ => none
  | (k, v) :: rest, k' => if k = k' then some v else lookupA rest k'

/-- `HashMap::remove` (key erasure). -/
def eraseA {α : Type} (m : List (Nat × α)) (k : Nat) : List (Nat × α) :=
  m.filter (fun e => e.1 ≠ k)

/-- `HashMap::insert` (replaces any binding of the key). -/
def insertA {α : Type} (m : List (Nat × α)) (k : Nat) (v : α) : List (Nat × α) :=
  (k, v) :: eraseA m k

/-- In-place modification of the value at one key (`get_mut` followed by a
mutation); other keys untouched, absent key is a no-op. -/
def updateA {α : Type} (m : List (Nat × α)) (k : Nat) (f : α → α) : List (Nat × α) :=
  match m with
  | [] => []
  | (k0, v) :: rest => if k0 = k then (k0, f v) :: rest else (k0, v) :: updateA rest k f

/-! ## The matchmaker registry (`struct Matchmaker`, `struct Room`) -/

/-- `struct Room`: the host's connection handle, the member list of weak
references to relay-client connections, and the room id. -/
structure Room where
  host : Nat
  clients : List Nat
  id : Nat
deriving DecidableEq, Repr

/-- `struct Matchmaker`: rooms by id, host address → room id, relay-client
address → room id. -/
structure MM where
  rooms : List (Nat × Room)
  host_rooms : List (Nat × Nat)
  relay_clients : List (Nat × Nat)
deriving DecidableEq, Repr

/-- `Matchmaker::new()`. -/
def initMM : MM := { rooms := [], host_rooms := [], relay_clients := [] }

/-- The loop body of `find_free_room_id`: at draw index `i` with `fuel`
iterations left, take `draws i` (reduced into `0..=MAX_ROOM_ID`, the range
`gen_range` samples from) and return it unless a room with that id exists. -/
def findFreeFrom (occupied : Nat → Bool) (draws : Nat → Nat) : Nat → Nat → Option Nat
  | _, 0 => none
  | i, fuel + 1 =>
    let id := draws i % (MAX_ROOM_ID + 1)
    if occupied id then findFreeFrom occupied draws (i + 1) fuel else some id

/-- `Matchmaker::find_free_room_id`.  The Rust loop is `for _ in 1..50`,
and a Rust range `1..50` is half-open: the body runs 49 times, not the 50
announced by the function's own doc comment. -/
def find_free_room_id (s : MM) (draws : Nat → Nat) : Option Nat :=
  findFreeFrom (fun id => (lookupA s.rooms id).isSome) draws 0 49

/-- `Matchmaker::host` (the `Packet::Host` handler): draw a free room id;
on success create the room, index it under the host's address and answer
`RoomId`; on failure answer the no-free-rooms `Error` and leave the state
unchanged. -/
def hostOp (s : MM) (conn peerAddr : Nat) (draws : Nat → Nat) : MM × Sent :=
  match find_free_room_id s draws with
  | some roomId =>
    ({ rooms := insertA s.rooms roomId { host := conn, clients := [], id := roomId },
       host_rooms := insertA s.host_rooms peerAddr roomId,
       relay_clients := s.relay_clients },
     [(conn, Packet.roomId roomId)])
  | none => (s, [(conn, errorPacket "Could not find any more free rooms. Try again")])

/-- `Matchmaker::join` (the `Packet::GetHost` handler): pure address
exchange, no registry mutation. -/
def joinOp (addrOf : Nat → Nat) (s : MM) (conn roomId : Nat) : Sent :=
  match lookupA s.rooms roomId with
  | none =>
    [(conn, errorPacket "No room found with the given ID. Check whether you spelled the ID correctly")]
  | some room =>
    [(room.host, Packet.clientAddress (addrOf conn)), (conn, Packet.hostAddress (addrOf room.host))]

/-- `Matchmaker::add_relay` (the `Packet::RequestRelay` handler): the
target host address defaults to the requester's own; on success the
requester is recorded in `relay_clients`, a weak reference to it is pushed
onto the room's member list (unconditionally — no deduplication), and the
empty `Relayed` relay-ready acknowledgement is sent back. -/
def addRelayOp (s : MM) (conn peerAddr : Nat) (hostAddrOpt : Option Nat) : MM × Sent :=
  let hostAddr := hostAddrOpt.getD peerAddr
  match lookupA s.host_rooms hostAddr with
  | none => (s, [(conn, errorPacket "The host seems to have disconnected")])
  | some roomId =>
    ({ rooms := updateA s.rooms roomId (fun r => { r with clients := r.clients ++ [conn] }),
       host_rooms := s.host_rooms,
       relay_clients := insertA s.relay_clients peerAddr roomId },
     [(conn, Packet.relayed peerAddr [])])

/-- The fanout loop of `Matchmaker::relay`, over the member list after the
`retain` pruning.  Per entry: skip the origin connection (`Arc::ptr_eq`);
with a target, skip entries whose peer address differs; otherwise
`send_packet(client, &packet)?` — on a send failure the `?` aborts the
loop, so the result is the deliveries made so far and the flag `false`
(the `Err` propagated out of `relay`). -/
def fanoutLoop (addrOf : Nat → Nat) (sendOk : Nat → Bool) (originConn : Nat)
    (tgt : Option Nat) : List Nat → List Nat × Bool
  | [] => ([], true)
  | c :: rest =>
    if c = originConn then fanoutLoop addrOf sendOk originConn tgt rest
    else
      match tgt with
      | some a =>
        if addrOf c ≠ a then fanoutLoop addrOf sendOk originConn tgt rest
        else if sendOk c then
          let r := fanoutLoop addrOf sendOk originConn tgt rest
          (c :: r.1, r.2)
        else ([], false)
      | none =>
        if sendOk c then
          let r := fanoutLoop addrOf sendOk originConn tgt rest
          (c :: r.1, r.2)
        else ([], false)

/-- `Matchmaker::relay` (the `Packet::Relay` handler).  Resolves the room
via `relay_clients[origin address]`, then works on a clone of the room:
prunes dead weak references from the clone (`retain`; the registry's copy
is untouched), and runs the fanout loop with the `Relayed{origin, payload}`
envelope.  Returns the deliveries performed and `true` for `Ok(())`,
`false` for a propagated send `Err`.  The registry state is never
mutated. -/
def relayOp (addrOf : Nat → Nat) (alive sendOk : Nat → Bool) (s : MM)
    (originAddr originConn : Nat) (tgt : Option Nat) (data : List Nat) : Sent × Bool :=
  match lookupA s.relay_clients originAddr with
  | none => ([(originConn, errorPacket "Only relay clients may send Relay packets")], true)
  | some roomId =>
    match lookupA s.rooms roomId with
    | none => ([(originConn, errorPacket "The host seems to have disconnected")], true)
    | some room =>
      let pruned := room.clients.filter (fun c => alive c)
      let r := fanoutLoop addrOf sendOk originConn tgt pruned
      (r.1.map (fun c => (c, Packet.relayed originAddr data)), r.2)

/-- `Matchmaker::disconnect`: a host's departure removes its `host_rooms`
entry and the room itself; a relay client's departure removes its
`relay_clients` entry and, when its room still exists, notifies every
other living member with `Disconnected` (send failures are ignored:
`let _ = send_packet`). -/
def disconnectOp (alive : Nat → Bool) (s : MM) (conn peerAddr : Nat) : MM × Sent :=
  let p1 :=
    match lookupA s.host_rooms peerAddr with
    | some roomId => (eraseA s.rooms roomId, eraseA s.host_rooms peerAddr)
    | none => (s.rooms, s.host_rooms)
  match lookupA s.relay_clients peerAddr with
  | none => ({ rooms := p1.1, host_rooms := p1.2, relay_clients := s.relay_clients }, [])
  | some roomId =>
    let s' : MM :=
      { rooms := p1.1, host_rooms := p1.2, relay_clients := eraseA s.relay_clients peerAddr }
    match lookupA p1.1 roomId with
    | none => (s', [])
    | some room =>
      (s',
       (room.clients.filter (fun c => alive c && c ≠ conn)).map
         (fun c => (c, Packet.disconnected peerAddr)))

/-! ## Registry state machine

One step per public operation of the registry, with the per-operation
oracles (RNG draws, liveness at the moment of the call) quantified in the
step.  `join` and `relay` never mutate the registry, so they contribute
identity steps.  The address a handler passes around is always the
connection's own peer address, `addrOf conn`. -/

/-- One registry mutation, as performed by the corresponding handler. -/
inductive MStep (addrOf : Nat → Nat) : MM → MM → Prop
  | host (s : MM) (conn : Nat) (draws : Nat → Nat) :
      MStep addrOf s (hostOp s conn (addrOf conn) draws).1
  | join (s : MM) (conn roomId : Nat) : MStep addrOf s s
  | addRelay (s : MM) (conn : Nat) (hostAddrOpt : Option Nat) :
      MStep addrOf s (addRelayOp s conn (addrOf conn) hostAddrOpt).1
  | relay (s : MM) (conn : Nat) (tgt : Option Nat) (data : List Nat) : MStep addrOf s s
  | disconnect (s : MM) (conn : Nat) (alive : Nat → Bool) :
      MStep addrOf s (disconnectOp alive s conn (addrOf conn)).1

/-- Registry states reachable from `Matchmaker::new()` by any sequence of
host, join, bind-relay, relay and disconnect operations; each state is
quiescent (no handler mid-flight, no lock held). -/
inductive MReachable (addrOf : Nat → Nat) : MM → Prop
  | init : MReachable addrOf initMM
  | step {s s' : MM} : MReachable addrOf s → MStep addrOf s s' → MReachable addrOf s'

/-! ## The per-connection read loop (`Matchmaker::start_client_thread`) -/

/-- The dispatch skeleton of `Matchmaker::incoming_packet`: `Host`,
`GetHost`, `RequestRelay` and `Relay` go to their handlers (which answer
operation failures with `Error` packets and return `Ok`); every other tag
falls to the wildcard arm, which returns `Err(Error::InvalidPacket)`. -/
def incomingPacketDispatch : Packet → Except Unit Unit
  | Packet.host => Except.ok ()
  | Packet.getHost _ => Except.ok ()
  | Packet.requestRelay _ => Except.ok ()
  | Packet.relay _ _ => Except.ok ()
  | _ => Except.error ()

/-- The read loop of `start_client_thread`, applied to the stream of frame
decode results (`none` = `bincode::deserialize` failed, `some p` = the
decoded packet).  A decode failure sets `running = false` inside
`map_err`, so the loop exits and no later frame is read.  A decoded packet
is always handed to `incoming_packet`; if that returns
`Err(Error::InvalidPacket)` the `or_else` arm only logs it — `running` is
untouched and the loop keeps reading.  The result is the list of packets
that were dispatched to `incoming_packet`. -/
def runLoop : List (Option Packet) → List Packet
  | [] => []
  | none :: _ => []
  | some p :: rest =>
    match incomingPacketDispatch p with
    | Except.ok _ => p :: runLoop rest
    | Except.error _ => p :: runLoop rest

/-! ## The WallhackD relay server's custom-id host operation
(`netcanv-relay/src/whrc.rs`, `whrc_custom_id_host`)

The function lives in `src`, but the crate root it calls into (`State`,
`Peers::allocate_peer_id`, `Rooms::{host_id, make_host, join_room,
occupied_room_ids, room_clients}`, `netcanv_protocol::relay`) is not among
the sources; those parts are modelled from the spec below. -/

/-- `netcanv_protocol::relay::Error`, restricted to the variants
`whrc_custom_id_host` sends. -/
inductive RelayError where
  | noFreePeerIDs
  | noFreeRooms
deriving DecidableEq, Repr

/-- `netcanv_protocol::relay::Packet`, restricted to the variants
`whrc_custom_id_host` sends. -/
inductive RelayPacket where
  | error (e : RelayError)
  | roomCreated (roomId peerId : Nat)
deriving DecidableEq, Repr

/-- Modelled from the spec: the relay server's peer table (the `Peers`
field of the `netcanv-relay` crate-root `State`, absent from the sources).
Registered peers map a peer ID to the connection's address (the write sink
is represented by the address); the ID space is bounded, so allocation can
run out (`Error::NoFreePeerIDs`). -/
structure RPeers where
  registered : List (Nat × Nat)
  nextId : Nat
  capacity : Nat
deriving DecidableEq, Repr

/-- Modelled from the spec: `Peers::allocate_peer_id` (crate root of
`netcanv-relay`, absent from the sources).  Registers the requesting
connection — its write sink and address — under a fresh peer ID and
returns it, or returns `none` when no free peer IDs remain. -/
def allocate_peer_id (ps : RPeers) (addr : Nat) : Option (Nat × RPeers) :=
  if ps.registered.length < ps.capacity then
    some (ps.nextId,
      { ps with registered := (ps.nextId, addr) :: ps.registered, nextId := ps.nextId + 1 })
  else none

/-- Modelled from the spec: the relay server's room registry (the `Rooms`
field of the `netcanv-relay` crate-root `State`, absent from the sources):
the set of occupied room ids, each room's client list, and each room's
host peer. -/
structure RRooms where
  occupied_room_ids : List Nat
  room_clients : List (Nat × List Nat)
  hosts : List (Nat × Nat)
deriving DecidableEq, Repr

/-- Modelled from the spec: `Rooms::host_id` (crate root of
`netcanv-relay`, absent from the sources) — the peer ID of the room's
host, when the room currently has one. -/
def host_id (r : RRooms) (roomId : Nat) : Option Nat := lookupA r.hosts roomId

/-- Modelled from the spec: `Rooms::make_host` (crate root of
`netcanv-relay`, absent from the sources) — records the peer as the host
of the room. -/
def make_host (r : RRooms) (roomId peerId : Nat) : RRooms :=
  { r with hosts := insertA r.hosts roomId peerId }

/-- Modelled from the spec: `Rooms::join_room` (crate root of
`netcanv-relay`, absent from the sources) — appends the peer to the room's
client list. -/
def join_room (r : RRooms) (peerId roomId : Nat) : RRooms :=
  { r with room_clients := updateA r.room_clients roomId (fun l => l ++ [peerId]) }

/-- The relay server state threaded through `whrc_custom_id_host`. -/
structure RState where
  peers : RPeers
  rooms : RRooms
deriving DecidableEq, Repr

/-- `whrc_custom_id_host` (`netcanv-relay/src/whrc.rs`): allocate a peer
ID for the requester (bail with `Error::NoFreePeerIDs` if none is free);
then, if the room id already has a host, send `Error::NoFreeRooms` and
bail "Room ID is in use" — the peer-ID allocation just performed is kept;
otherwise mark the id occupied (initialising its client list only when the
`HashSet::insert` reports the id as new), make the peer the room's host,
join it to the room, and answer `RoomCreated`.  The `Bool` is `true` for
`Ok(())` and `false` for an `anyhow::bail!`. -/
def whrc_custom_id_host (s : RState) (addr roomId : Nat) :
    RState × List RelayPacket × Bool :=
  match allocate_peer_id s.peers addr with
  | none => (s, [RelayPacket.error RelayError.noFreePeerIDs], false)
  | some (peerId, peers1) =>
    if (host_id s.rooms roomId).isSome then
      ({ peers := peers1, rooms := s.rooms }, [RelayPacket.error RelayError.noFreeRooms], false)
    else
      let newlyInserted := ¬ roomId ∈ s.rooms.occupied_room_ids
      let rooms1 :=
        if newlyInserted then
          { s.rooms with
            occupied_room_ids := roomId :: s.rooms.occupied_room_ids,
            room_clients := insertA s.rooms.room_clients roomId [] }
        else s.rooms
      let rooms2 := join_room (make_host rooms1 roomId peerId) peerId roomId
      ({ peers := peers1, rooms := rooms2 }, [RelayPacket.roomCreated roomId peerId], true)

/-! ## Peer protocol client (`src/net/peer.rs`) -/

/-- The peer-to-peer payload protocol (`netcanv_protocol::client`), as far
as the peer client decodes it. -/
inductive ClPacket where
  | hello (nickname : String)
  | hiThere (nickname : String)
  | version (v : Nat)
  | cursor (x y brushSize : Nat)
  | stroke (points : List Nat)
  | chunkPositions (positions : List (Int × Int))
  | getChunks (positions : List (Int × Int))
  | chunks (data : List ((Int × Int) × List Nat))
deriving DecidableEq, Repr

/-- What `Peer::next_packet` does with a `Relayed` packet: the guarded
match arm `Relayed(_, payload) if payload.len() == 0` selects
`Then::SayHello`, whose dispatch runs
`self.send(None, cl::Packet::Hello(self.nickname.clone()))` — a broadcast
(`to = None`) of `Hello` with the peer's nickname; any other `Relayed`
selects `Then::ReadRelayed(from, payload)`, which hands the payload to
`decode_payload`. -/
inductive PeerEffect where
  | send (tgt : Option Nat) (p : ClPacket)
  | decodePayload (sender : Nat) (payload : List Nat)
deriving DecidableEq, Repr

/-- The `Relayed` handling of `Peer::next_packet` (the two `Relayed` match
arms plus the `Then` dispatch after the match). -/
def handleRelayed (nickname : String) (sender : Nat) (payload : List Nat) : PeerEffect :=
  if payload.length = 0 then PeerEffect.send none (ClPacket.hello nickname)
  else PeerEffect.decodePayload sender payload

/-! ## Chunk synchronization (`src/app/paint.rs`)

The four chunk-coordinate sets of `app::paint::State`
(`server_side_chunks`, `needed_chunks`, `requested_chunks`,
`downloaded_chunks`), all initialised empty in `State::new` and with
`server_side_chunks` set once by the session-opening `ChunkPositions`
message.  Coordinates are `(i32, i32)` pairs, modelled as `Int × Int`. -/

/-- The chunk-availability sets of one synchronization session. -/
structure SyncState where
  server : Finset (Int × Int)
  needed : Finset (Int × Int)
  requested : Finset (Int × Int)
  downloaded : Finset (Int × Int)

/-- Session start: `server_side_chunks = positions.drain(..).collect()`
from the one `ChunkPositions` message; the other three sets are as
`State::new` left them — empty. -/
def syncInit (S : Finset (Int × Int)) : SyncState :=
  { server := S, needed := ∅, requested := ∅, downloaded := ∅ }

/-- One client-side event of the session, as the code performs it:

* `tickSave` — the `update_timer` tick with `save_to_file` set and
  `requested_chunks.len() < server_side_chunks.len()`:
  `needed_chunks.extend(server_side_chunks.difference(&requested_chunks))`.
* `tickView` — the `update_timer` tick without a pending save: for each
  visible tile, insert it into `needed_chunks` when it is in
  `server_side_chunks` and not in `requested_chunks`.
* `tickIdle` — a tick that changes no set (e.g. the save branch once every
  chunk is downloaded).
* `drain` — the `process` step `if needed_chunks.len() > 0`: copy every
  needed chunk into `requested_chunks`, then `needed_chunks.drain()` into
  the outgoing `GetChunks` (when `needed_chunks` is empty this is the
  no-op the `len() > 0` guard skips).
* `recvChunks` — a `Message::Chunks` arrives and every received position
  is inserted into `downloaded_chunks`.  Within one session the host
  builds each `Chunks` packet by `filter_map` over the positions of a
  `GetChunks` this client sent (`process`, deferred-queue handler), and
  those positions were put into `requested_chunks` at their `drain`;
  `requested_chunks` only grows, hence the hypothesis `ps ⊆ requested`. -/
inductive SyncStep : SyncState → SyncState → Prop
  | tickSave (s : SyncState) (h : s.requested.card < s.server.card) :
      SyncStep s { s with needed := s.needed ∪ (s.server \ s.requested) }
  | tickView (s : SyncState) (v : Finset (Int × Int)) :
      SyncStep s { s with needed := s.needed ∪ ((v ∩ s.server) \ s.requested) }
  | tickIdle (s : SyncState) : SyncStep s s
  | drain (s : SyncState) :
      SyncStep s { s with requested := s.requested ∪ s.needed, needed := ∅ }
  | recvChunks (s : SyncState) (ps : Finset (Int × Int)) (h : ps ⊆ s.requested) :
      SyncStep s { s with downloaded := s.downloaded ∪ ps }

/-- Session states reachable from the receipt of the one `ChunkPositions`
message (advertising the set `S`), with no later `ChunkPositions`. -/
inductive SyncReachable (S : Finset (Int × Int)) : SyncState → Prop
  | init : SyncReachable S (syncInit S)
  | step {s s' : SyncState} :
      SyncReachable S s → SyncStep s s' → SyncReachable S s'

/-- The synchronization stage of one chunk coordinate: `0` untracked, `1`
needed, `2` requested, `3` downloaded (a downloaded chunk remains
requested; the highest stage is reported). -/
def syncRank (s : SyncState) (c : Int × Int) : Nat :=
  if c ∈ s.downloaded then 3
  else if c ∈ s.requested then 2
  else if c ∈ s.needed then 1
  else 0

/-! ## Invariant predicates for the matchmaker registry -/

/-- Every address in `host_rooms` references a room that exists in
`rooms`. -/
def hostRoomsValid (s : MM) : Prop :=
  ∀ a id, lookupA s.host_rooms a = some id → (lookupA s.rooms id).isSome = true

/-- No two host addresses reference the same room id. -/
def hostRoomsInj (s : MM) : Prop :=
  ∀ a1 a2 id, lookupA s.host_rooms a1 = some id → lookupA s.host_rooms a2 = some id → a1 = a2

/-! ## Concrete scenarios used by witnesses and counterexamples -/

/-- Address map assigning connection handle `c` the address `c`. -/
def addrId : Nat → Nat := fun c => c

/-- Connection 1 hosts; the RNG draws room id 7. -/
def c3s1 : MM := (hostOp initMM 1 1 (fun _ => 7)).1

/-- Connection 2 binds as a relay client of connection 1's room. -/
def c3s2 : MM := (addRelayOp c3s1 2 2 (some 1)).1

/-- Connection 1 (the host) disconnects. -/
def c3s3 : MM := (disconnectOp (fun _ => true) c3s2 1 1).1

/-- A registry holding the single room 0. -/
def c7rooms : MM :=
  { rooms := [(0, { host := 6, clients := [], id := 0 })],
    host_rooms := [(50, 0)], relay_clients := [] }

/-- An RNG stream whose first 49 draws are the occupied id 0 and whose
50th draw (index 49) is the free id 1. -/
def c7draws : Nat → Nat := fun i => if i < 49 then 0 else 1

/-- A relay-server state with one registered peer hosting room 7, and room
for further peer registrations. -/
def c5state : RState :=
  { peers := { registered := [(0, 100)], nextId := 1, capacity := 16 },
    rooms := { occupied_room_ids := [7], room_clients := [(7, [0])], hosts := [(7, 0)] } }

/-- A one-coordinate advertised set. -/
def c8S : Finset (Int × Int) := {(0, 0)}

/-- Session start for `c8S`. -/
def c8s0 : SyncState := syncInit c8S

/-- After one viewport tick with the advertised chunk visible. -/
def c8s1 : SyncState := { c8s0 with needed := c8s0.needed ∪ ((c8S ∩ c8s0.server) \ c8s0.requested) }

/-- After draining the needed set into a `GetChunks` request. -/
def c8s2 : SyncState := { c8s1 with requested := c8s1.requested ∪ c8s1.needed, needed := ∅ }

/-- After the host's `Chunks` answer arrives. -/
def c8s3 : SyncState := { c8s2 with downloaded := c8s2.downloaded ∪ c8S }

/-! ## Association-list lemmas -/

theorem lookupA_eraseA_self {α : Type} (m : List (Nat × α)) (k : Nat) :
    lookupA (eraseA m k) k = none := by
  induction m with
  | nil => rfl
  | cons e rest ih =>
    obtain ⟨k0, v0⟩ := e
    by_cases h0 : k0 = k
    · simpa [eraseA, h0] using ih
    · simpa [eraseA, lookupA, h0] using ih

theorem lookupA_eraseA_ne {α : Type} (m : List (Nat × α)) {k k' : Nat} (h : k ≠ k') :
    lookupA (eraseA m k) k' = lookupA m k' := by
  induction m with
  | nil => rfl
  | cons e rest ih =>
    obtain ⟨k0, v0⟩ := e
    by_cases h0 : k0 = k
    · subst h0
      simpa [eraseA, lookupA, h] using ih
    · by_cases h1 : k0 = k'
      · subst h1
        simp [eraseA, lookupA, h0]
      · simpa [eraseA, lookupA, h0, h1] using ih

theorem lookupA_insertA_self {α : Type} (m : List (Nat × α)) (k : Nat) (v : α) :
    lookupA (insertA m k v) k = some v := by
  simp [insertA, lookupA]

theorem lookupA_insertA_ne {α : Type} (m : List (Nat × α)) {k k' : Nat} (v : α) (h : k ≠ k') :
    lookupA (insertA m k v) k' = lookupA m k' := by
  simp [insertA, lookupA, h]
  exact lookupA_eraseA_ne m h

theorem isSome_lookupA_insertA {α : Type} (m : List (Nat × α)) (k k' : Nat) (v : α)
    (h : (lookupA m k').isSome = true) : (lookupA (insertA m k v) k').isSome = true := by
  by_cases hk : k = k'
  · subst hk
    simp [lookupA_insertA_self]
  · rw [lookupA_insertA_ne m v hk]
    exact h

theorem lookupA_updateA {α : Type} (m : List (Nat × α)) (k : Nat) (f : α → α) (k' : Nat) :
    lookupA (updateA m k f) k' =
      if k = k' then (lookupA m k').map f else lookupA m k' := by
  induction m with
  | nil => simp [updateA, lookupA]
  | cons e rest ih =>
    obtain ⟨k0, v0⟩ := e
    by_cases h0 : k0 = k
    · subst h0
      by_cases h1 : k0 = k'
      · subst h1
        simp [updateA, lookupA]
      · simp [updateA, lookupA, h1]
    · by_cases h1 : k0 = k'
      · subst h1
        have hkk : ¬ k = k0 := fun hh => h0 hh.symm
        simp [updateA, lookupA, h0, hkk]
      · simpa [updateA, lookupA, h0, h1] using ih

theorem isSome_lookupA_updateA {α : Type} (m : List (Nat × α)) (k : Nat) (f : α → α) (k' : Nat) :
    (lookupA (updateA m k f) k').isSome = (lookupA m k').isSome := by
  rw [lookupA_updateA]
  by_cases h : k = k'
  · simp [h]
  · simp [h]

/-! ## List helpers -/

theorem filter_eq_self_of_all {α : Type} (p : α → Bool) (l : List α)
    (h : ∀ c, p c = true) : l.filter p = l := by
  induction l with
  | nil => rfl
  | cons c rest ih => simp [List.filter, h c, ih]

theorem map_fst_pair (l : List Nat) (pkt : Packet) :
    (l.map (fun c => (c, pkt))).map Prod.fst = l := by
  induction l with
  | nil => rfl
  | cons c rest ih => simp only [List.map_cons, ih]

theorem count_filter_of_pos (p : Nat → Bool) (l : List Nat) (a : Nat) (h : p a = true) :
    (l.filter p).count a = l.count a := by
  induction l with
  | nil => rfl
  | cons c rest ih =>
    by_cases hc : c = a
    · subst hc
      simp [List.filter, h, List.count_cons, ih]
    · by_cases hp : p c = true
      · simp [List.filter, hp, List.count_cons, hc, ih]
      · have hp' : p c = false := by
          cases hpc : p c
          · rfl
          · exact absurd hpc hp
        simp [List.filter, hp', List.count_cons, hc, ih]

/-! ## `find_free_room_id` lemmas -/

theorem findFreeFrom_not_occupied (occupied : Nat → Bool) (draws : Nat → Nat) :
    ∀ fuel i id, findFreeFrom occupied draws i fuel = some id → occupied id = false := by
  intro fuel
  induction fuel with
  | zero => intro i id h; exact absurd h (by simp [findFreeFrom])
  | succ n ih =>
    intro i id h
    rw [findFreeFrom] at h
    by_cases hocc : occupied (draws i % (MAX_ROOM_ID + 1)) = true
    · exact ih (i + 1) id (by simpa [hocc] using h)
    · have hocc' : occupied (draws i % (MAX_ROOM_ID + 1)) = false := by
        cases hc : occupied (draws i % (MAX_ROOM_ID + 1))
        · rfl
        · exact absurd hc hocc
      have : some (draws i % (MAX_ROOM_ID + 1)) = some id := by simpa [hocc'] using h
      have hid : draws i % (MAX_ROOM_ID + 1) = id := by injection this
      rw [← hid]
      exact hocc'

theorem find_free_room_id_fresh (s : MM) (draws : Nat → Nat) (id : Nat)
    (h : find_free_room_id s draws = some id) : (lookupA s.rooms id).isSome = false :=
  findFreeFrom_not_occupied (fun i => (lookupA s.rooms i).isSome) draws 49 0 id h

/-! ## Fanout-loop lemmas -/

theorem fanoutLoop_none_ok (addrOf : Nat → Nat) (sendOk : Nat → Bool) (origin : Nat)
    (l : List Nat) (hs : ∀ c ∈ l, sendOk c = true) :
    fanoutLoop addrOf sendOk origin none l = (l.filter (fun c => c ≠ origin), true) := by
  induction l with
  | nil => rfl
  | cons c rest ih =>
    have hrest : ∀ x ∈ rest, sendOk x = true := fun x hx => hs x (List.mem_cons_of_mem c hx)
    by_cases hc : c = origin
    · simp [fanoutLoop, hc, ih hrest]
    · simp [fanoutLoop, hc, hs c (List.mem_cons_self c rest), ih hrest]

theorem fanoutLoop_none_abort (addrOf : Nat → Nat) (sendOk : Nat → Bool) (origin : Nat)
    (pre post : List Nat) (bad : Nat)
    (hpre : ∀ c ∈ pre, sendOk c = true) (hbad : sendOk bad = false) (hbadne : bad ≠ origin) :
    fanoutLoop addrOf sendOk origin none (pre ++ bad :: post)
      = (pre.filter (fun c => c ≠ origin), false) := by
  induction pre with
  | nil => simp [fanoutLoop, hbadne, hbad]
  | cons c rest ih =>
    have hrest : ∀ x ∈ rest, sendOk x = true := fun x hx => hpre x (List.mem_cons_of_mem c hx)
    by_cases hc : c = origin
    · simp [fanoutLoop, hc, ih hrest]
    · simp [fanoutLoop, hc, hpre c (List.mem_cons_self c rest), ih hrest]

theorem fanoutLoop_target_mem (addrOf : Nat → Nat) (sendOk : Nat → Bool) (origin a : Nat) :
    ∀ l : List Nat, ∀ c ∈ (fanoutLoop addrOf sendOk origin (some a) l).1,
      c ∈ l ∧ c ≠ origin ∧ addrOf c = a := by
  intro l
  induction l with
  | nil => intro c hc; exact absurd hc (by simp [fanoutLoop])
  | cons x rest ih =>
    intro c hc
    by_cases hx : x = origin
    · have := ih c (by simpa [fanoutLoop, hx] using hc)
      exact ⟨List.mem_cons_of_mem x this.1, this.2⟩
    · by_cases ha : addrOf x = a
      · by_cases hsend : sendOk x = true
        · rcases (by simpa [fanoutLoop, hx, ha, hsend] using hc : c = x ∨
            c ∈ (fanoutLoop addrOf sendOk origin (some a) rest).1) with hcx | hmem
          · subst hcx; exact ⟨List.mem_cons_self c rest, hx, ha⟩
          · have := ih c hmem
            exact ⟨List.mem_cons_of_mem x this.1, this.2⟩
        · have hsend' : sendOk x = false := by
            cases hb : sendOk x
            · rfl
            · exact absurd hb hsend
          exact absurd hc (by simp [fanoutLoop, hx, ha, hsend'])
      · have := ih c (by simpa [fanoutLoop, hx, ha] using hc)
        exact ⟨List.mem_cons_of_mem x this.1, this.2⟩

/-! ## Claim C1 — broadcast relay -/

/-- Claim C1: for a `Relay` with `target = None` whose origin is bound as
a relay client of an existing room, and with every send succeeding, the
broker delivers the `Relayed{origin, payload}` envelope to exactly the
living entries of the room's member list other than the origin connection
— once per entry, hence exactly once per member when the list has no
duplicates — dead references are skipped, and the origin receives
nothing. -/
theorem C1_relay_broadcast (addrOf : Nat → Nat) (alive sendOk : Nat → Bool) (s : MM)
    (originAddr originConn roomId : Nat) (room : Room) (data : List Nat)
    (h1 : lookupA s.relay_clients originAddr = some roomId)
    (h2 : lookupA s.rooms roomId = some room)
    (hs : ∀ c, sendOk c = true) :
    (relayOp addrOf alive sendOk s originAddr originConn none data).2 = true
    ∧ (relayOp addrOf alive sendOk s originAddr originConn none data).1
        = ((room.clients.filter (fun c => alive c)).filter (fun c => c ≠ originConn)).map
            (fun c => (c, Packet.relayed originAddr data))
    ∧ (room.clients.Nodup → ∀ c ∈ room.clients, alive c = true → c ≠ originConn →
        ((relayOp addrOf alive sendOk s originAddr originConn none data).1.map
          Prod.fst).count c = 1)
    ∧ (∀ c, alive c = false →
        c ∉ (relayOp addrOf alive sendOk s originAddr originConn none data).1.map Prod.fst)
    ∧ originConn ∉ (relayOp addrOf alive sendOk s originAddr originConn none data).1.map
        Prod.fst := by
  have hfan := fanoutLoop_none_ok addrOf sendOk originConn
    (room.clients.filter (fun c => alive c)) (fun c _ => hs c)
  have hdel : (relayOp addrOf alive sendOk s originAddr originConn none data).1
      = ((room.clients.filter (fun c => alive c)).filter (fun c => c ≠ originConn)).map
          (fun c => (c, Packet.relayed originAddr data)) := by
    simp only [relayOp, h1, h2, hfan]
  have hfst : (relayOp addrOf alive sendOk s originAddr originConn none data).1.map Prod.fst
      = (room.clients.filter (fun c => alive c)).filter (fun c => c ≠ originConn) := by
    rw [hdel, map_fst_pair]
  refine ⟨by simp only [relayOp, h1, h2, hfan], hdel, ?_, ?_, ?_⟩
  · intro hnd c hmem halive hne
    rw [hfst]
    refine List.count_eq_one_of_mem ((hnd.filter _).filter _) ?_
    rw [List.mem_filter]
    refine ⟨?_, by simpa using hne⟩
    rw [List.mem_filter]
    exact ⟨hmem, halive⟩
  · intro c hdead hmem
    rw [hfst, List.mem_filter, List.mem_filter] at hmem
    rw [hmem.1.2] at hdead
    exact Bool.true_eq_false.mp hdead
  · intro hmem
    rw [hfst, List.mem_filter] at hmem
    simpa using hmem.2

/-- Claim C1 witness: in a room with member list `[10, 11, 12]` where
connection 12 is dead, a broadcast from member 10 delivers to member 11
exactly once. -/
theorem C1_relay_broadcast_witness :
    ((relayOp (fun c => c) (fun c => c ≠ 12) (fun _ => true)
        { rooms := [(3, { host := 9, clients := [10, 11, 12], id := 3 })],
          host_rooms := [], relay_clients := [(5, 3)] }
        5 10 none [1]).1.map Prod.fst).count 11 = 1 :=
  (C1_relay_broadcast (fun c => c) (fun c => c ≠ 12) (fun _ => true)
      { rooms := [(3, { host := 9, clients := [10, 11, 12], id := 3 })],
        host_rooms := [], relay_clients := [(5, 3)] }
      5 10 3 { host := 9, clients := [10, 11, 12], id := 3 } [1]
      (by decide) (by decide) (fun c => rfl)).2.2.1 (by decide) 11 (by decide) (by decide)
    (by decide)

/-! ## Claim C2 — a failed delivery aborts the fanout -/

/-- Claim C2 counterexample: room members `[2, 3]`, all alive; the send to
member 2 fails.  Contrary to the claim, member 3 — living, and with a send
that would succeed — receives nothing (the delivery list is empty) and the
failure is propagated out of `relay` as `Err` (the `false` flag), not
contained. -/
theorem C2_counterexample :
    relayOp (fun c => c) (fun _ => true) (fun c => c ≠ 2)
      { rooms := [(3, { host := 9, clients := [2, 3], id := 3 })],
        host_rooms := [], relay_clients := [(1, 3)] }
      1 1 none [7] = ([], false) := by decide

/-- Claim C2 amended: when the send to one member fails, the fanout loop
stops at that member: exactly the living non-origin members *before* it in
the member list have been delivered to, every member after it receives
nothing, and `relay` returns the error (which the read loop merely logs —
no `Error` packet goes back to the sender and the connection stays
open). -/
theorem C2_fanout_abort (addrOf : Nat → Nat) (alive sendOk : Nat → Bool) (s : MM)
    (originAddr originConn roomId : Nat) (room : Room) (data : List Nat)
    (pre post : List Nat) (bad : Nat)
    (h1 : lookupA s.relay_clients originAddr = some roomId)
    (h2 : lookupA s.rooms roomId = some room)
    (hsplit : room.clients.filter (fun c => alive c) = pre ++ bad :: post)
    (hpre : ∀ c ∈ pre, sendOk c = true)
    (hbad : sendOk bad = false) (hbadne : bad ≠ originConn) :
    relayOp addrOf alive sendOk s originAddr originConn none data
      = ((pre.filter (fun c => c ≠ originConn)).map
          (fun c => (c, Packet.relayed originAddr data)), false) := by
  have habort := fanoutLoop_none_abort addrOf sendOk originConn pre post bad hpre hbad hbadne
  simp only [relayOp, h1, h2, hsplit, habort]

/-- Claim C2 amended witness: members `[4, 2, 3]` with the send to 2
failing — member 4 (before the failure) is delivered to, member 3 (after
it) is not, and the error is returned. -/
theorem C2_fanout_abort_witness :
    relayOp (fun c => c) (fun _ => true) (fun c => c ≠ 2)
      { rooms := [(3, { host := 9, clients := [4, 2, 3], id := 3 })],
        host_rooms := [], relay_clients := [(1, 3)] }
      1 1 none [7] = ([(4, Packet.relayed 1 [7])], false) :=
  C2_fanout_abort (fun c => c) (fun _ => true) (fun c => c ≠ 2)
    { rooms := [(3, { host := 9, clients := [4, 2, 3], id := 3 })],
      host_rooms := [], relay_clients := [(1, 3)] }
    1 1 3 { host := 9, clients := [4, 2, 3], id := 3 } [7]
    [4] [3] 2 (by decide) (by decide) (by decide) (by decide) (by decide) (by decide)

/-! ## Claim C6 — targeted relay -/

/-- Claim C6: for a `Relay` with `target = Some(addr)`, every delivery
carries the `Relayed{origin, payload}` envelope and goes to a living
member whose address equals `addr` and which is not the origin connection
— even when the origin's own address equals `addr`; when living
connections have pairwise distinct addresses, all deliveries go to one
single member. -/
theorem C6_relay_targeted (addrOf : Nat → Nat) (alive sendOk : Nat → Bool) (s : MM)
    (originAddr originConn roomId a : Nat) (room : Room) (data : List Nat)
    (h1 : lookupA s.relay_clients originAddr = some roomId)
    (h2 : lookupA s.rooms roomId = some room) :
    (∀ e ∈ (relayOp addrOf alive sendOk s originAddr originConn (some a) data).1,
        e.2 = Packet.relayed originAddr data ∧ e.1 ≠ originConn ∧ addrOf e.1 = a
          ∧ alive e.1 = true)
    ∧ ((∀ c1 c2, alive c1 = true → alive c2 = true → addrOf c1 = addrOf c2 → c1 = c2) →
        ∀ e1 ∈ (relayOp addrOf alive sendOk s originAddr originConn (some a) data).1,
        ∀ e2 ∈ (relayOp addrOf alive sendOk s originAddr originConn (some a) data).1,
          e1.1 = e2.1) := by
  have hchar : ∀ e ∈ (relayOp addrOf alive sendOk s originAddr originConn (some a) data).1,
      e.2 = Packet.relayed originAddr data ∧ e.1 ≠ originConn ∧ addrOf e.1 = a
        ∧ alive e.1 = true := by
    intro e he
    have hdel : (relayOp addrOf alive sendOk s originAddr originConn (some a) data).1
        = (fanoutLoop addrOf sendOk originConn (some a)
            (room.clients.filter (fun c => alive c))).1.map
              (fun c => (c, Packet.relayed originAddr data)) := by
      simp only [relayOp, h1, h2]
    rw [hdel] at he
    rcases List.mem_map.mp he with ⟨c, hc, hce⟩
    have hprop := fanoutLoop_target_mem addrOf sendOk originConn a
      (room.clients.filter (fun c => alive c)) c hc
    have hal : alive c = true := (List.mem_filter.mp hprop.1).2
    rw [← hce]
    exact ⟨rfl, hprop.2.1, hprop.2.2, hal⟩
  refine ⟨hchar, ?_⟩
  intro hinj e1 he1 e2 he2
  have p1 := hchar e1 he1
  have p2 := hchar e2 he2
  exact hinj e1.1 e2.1 p1.2.2.2 p2.2.2.2 (p1.2.2.1.trans p2.2.2.1.symm)

/-- Claim C6 witness: member list `[1, 2, 2]` (connection 2 bound twice),
origin 1, target address 2 — the delivery at the head of the returned list
goes to connection 2 (not the origin), carries the envelope, and matches
the target address. -/
theorem C6_relay_targeted_witness :
    ((2 : Nat), Packet.relayed 5 [9]).2 = Packet.relayed 5 [9]
    ∧ ((2 : Nat), Packet.relayed 5 [9]).1 ≠ 1
    ∧ (fun c => c) ((2 : Nat), Packet.relayed 5 [9]).1 = 2
    ∧ (fun _ => true) ((2 : Nat), Packet.relayed 5 [9]).1 = true :=
  (C6_relay_targeted (fun c => c) (fun _ => true) (fun _ => true)
      { rooms := [(3, { host := 9, clients := [1, 2, 2], id := 3 })],
        host_rooms := [], relay_clients := [(5, 3)] }
      5 1 3 2 { host := 9, clients := [1, 2, 2], id := 3 } [9]
      (by decide) (by decide)).1 (2, Packet.relayed 5 [9]) (by decide)

/-! ## Claim C9 — binding a relay client is not idempotent -/

/-- Claim C9: a second `RequestRelay` from a connection already counted
once in its room's member list appends a second reference (no
deduplication), after which one broadcast relay from another member
delivers the single payload to that connection twice — once per list
entry. -/
theorem C9_add_relay_not_idempotent (addrOf : Nat → Nat) (alive sendOk : Nat → Bool)
    (s : MM) (conn hostAddr roomId o : Nat) (room : Room) (data : List Nat)
    (hhr : lookupA s.host_rooms hostAddr = some roomId)
    (hrm : lookupA s.rooms roomId = some room)
    (hcount : room.clients.count conn = 1)
    (horc : lookupA s.relay_clients (addrOf o) = some roomId)
    (hne : addrOf o ≠ addrOf conn)
    (honeq : o ≠ conn)
    (halive : ∀ c, alive c = true)
    (hsend : ∀ c, sendOk c = true) :
    lookupA (addRelayOp s conn (addrOf conn) (some hostAddr)).1.rooms roomId
      = some { room with clients := room.clients ++ [conn] }
    ∧ (room.clients ++ [conn]).count conn = 2
    ∧ (((relayOp addrOf alive sendOk (addRelayOp s conn (addrOf conn) (some hostAddr)).1
          (addrOf o) o none data).1.map Prod.fst).count conn = 2) := by
  have hstate : (addRelayOp s conn (addrOf conn) (some hostAddr)).1
      = { rooms := updateA s.rooms roomId (fun r => { r with clients := r.clients ++ [conn] }),
          host_rooms := s.host_rooms,
          relay_clients := insertA s.relay_clients (addrOf conn) roomId } := by
    simp only [addRelayOp, Option.getD, hhr]
  have hroom : lookupA (addRelayOp s conn (addrOf conn) (some hostAddr)).1.rooms roomId
      = some { room with clients := room.clients ++ [conn] } := by
    rw [hstate]
    show lookupA (updateA s.rooms roomId _) roomId = _
    rw [lookupA_updateA, if_pos rfl, hrm]
    rfl
  have hcount2 : (room.clients ++ [conn]).count conn = 2 := by
    rw [List.count_append, hcount]
    have hone : List.count conn [conn] = 1 := by simp
    omega
  refine ⟨hroom, hcount2, ?_⟩
  have hrc : lookupA (addRelayOp s conn (addrOf conn) (some hostAddr)).1.relay_clients
      (addrOf o) = some roomId := by
    rw [hstate]
    show lookupA (insertA s.relay_clients (addrOf conn) roomId) (addrOf o) = _
    rw [lookupA_insertA_ne _ _ (Ne.symm hne)]
    exact horc
  have hfan := fanoutLoop_none_ok addrOf sendOk o
    ((room.clients ++ [conn]).filter (fun c => alive c)) (fun c _ => hsend c)
  have hdel : (relayOp addrOf alive sendOk (addRelayOp s conn (addrOf conn) (some hostAddr)).1
      (addrOf o) o none data).1
      = (((room.clients ++ [conn]).filter (fun c => alive c)).filter (fun c => c ≠ o)).map
          (fun c => (c, Packet.relayed (addrOf o) data)) := by
    simp only [relayOp, hrc, hroom, hfan]
  rw [hdel, map_fst_pair, filter_eq_self_of_all _ _ halive,
    count_filter_of_pos _ _ _ (by simpa using Ne.symm honeq)]
  exact hcount2

/-- Claim C9 witness: room member list `[5, 4]`; connection 4 binds again
(member list becomes `[5, 4, 4]`), and a broadcast from member 5 then
reaches connection 4 twice. -/
theorem C9_add_relay_not_idempotent_witness :
    lookupA (addRelayOp
        { rooms := [(3, { host := 9, clients := [5, 4], id := 3 })],
          host_rooms := [(9, 3)], relay_clients := [(5, 3)] }
        4 4 (some 9)).1.rooms 3
      = some { host := 9, clients := [5, 4, 4], id := 3 }
    ∧ ([5, 4] ++ [4]).count 4 = 2
    ∧ (((relayOp (fun c => c) (fun _ => true) (fun _ => true)
          (addRelayOp
            { rooms := [(3, { host := 9, clients := [5, 4], id := 3 })],
              host_rooms := [(9, 3)], relay_clients := [(5, 3)] }
            4 4 (some 9)).1
          5 5 none [2]).1.map Prod.fst).count 4 = 2) :=
  C9_add_relay_not_idempotent (fun c => c) (fun _ => true) (fun _ => true)
    { rooms := [(3, { host := 9, clients := [5, 4], id := 3 })],
      host_rooms := [(9, 3)], relay_clients := [(5, 3)] }
    4 9 3 5 { host := 9, clients := [5, 4], id := 3 } [2]
    (by decide) (by decide) (by decide) (by decide) (by decide) (by decide)
    (fun c => rfl) (fun c => rfl)

/-! ## Claim C3 — the host/relay index invariant -/

/-- In every reachable registry state, every address in `host_rooms`
references an existing room, and no two host addresses reference the same
room.  (The analogous property for `relay_clients` fails — see the
counterexample.) -/
theorem host_index_invariant (addrOf : Nat → Nat) (s : MM) (h : MReachable addrOf s) :
    hostRoomsValid s ∧ hostRoomsInj s := by
  induction h with
  | init =>
    exact ⟨fun a id hl => by simp [initMM, lookupA] at hl,
      fun a1 a2 id hl1 _ => by simp [initMM, lookupA] at hl1⟩
  | @step s1 s2 _ hstep ih =>
    cases hstep with
    | host conn draws =>
      rcases hfind : find_free_room_id s1 draws with _ | roomId
      · simpa [hostOp, hfind] using ih
      · have hfresh := find_free_room_id_fresh s1 draws roomId hfind
        have hs' : (hostOp s1 conn (addrOf conn) draws).1
            = { rooms := insertA s1.rooms roomId { host := conn, clients := [], id := roomId },
                host_rooms := insertA s1.host_rooms (addrOf conn) roomId,
                relay_clients := s1.relay_clients } := by
          simp [hostOp, hfind]
        rw [hs']
        constructor
        · intro a id hl
          by_cases ha : addrOf conn = a
          · rw [← ha, lookupA_insertA_self] at hl
            have hid : roomId = id := by injection hl
            rw [← hid]
            rw [lookupA_insertA_self]
            rfl
          · rw [lookupA_insertA_ne _ _ ha] at hl
            exact isSome_lookupA_insertA _ _ _ _ (ih.1 a id hl)
        · intro a1 a2 id hl1 hl2
          by_cases ha1 : addrOf conn = a1
          · by_cases ha2 : addrOf conn = a2
            · exact ha1.symm.trans ha2
            · rw [← ha1, lookupA_insertA_self] at hl1
              have hid : roomId = id := by injection hl1
              rw [lookupA_insertA_ne _ _ ha2] at hl2
              have := ih.1 a2 id hl2
              rw [← hid] at this
              rw [this] at hfresh
              cases hfresh
          · by_cases ha2 : addrOf conn = a2
            · rw [← ha2, lookupA_insertA_self] at hl2
              have hid : roomId = id := by injection hl2
              rw [lookupA_insertA_ne _ _ ha1] at hl1
              have := ih.1 a1 id hl1
              rw [← hid] at this
              rw [this] at hfresh
              cases hfresh
            · rw [lookupA_insertA_ne _ _ ha1] at hl1
              rw [lookupA_insertA_ne _ _ ha2] at hl2
              exact ih.2 a1 a2 id hl1 hl2
    | join conn roomId => exact ih
    | addRelay conn hostAddrOpt =>
      rcases hha : lookupA s1.host_rooms (hostAddrOpt.getD (addrOf conn)) with _ | roomId
      · simpa [addRelayOp, hha] using ih
      · have hs' : (addRelayOp s1 conn (addrOf conn) hostAddrOpt).1
            = { rooms := updateA s1.rooms roomId
                  (fun r => { r with clients := r.clients ++ [conn] }),
                host_rooms := s1.host_rooms,
                relay_clients := insertA s1.relay_clients (addrOf conn) roomId } := by
          simp [addRelayOp, hha]
        rw [hs']
        constructor
        · intro a id hl
          have := ih.1 a id hl
          show (lookupA (updateA s1.rooms roomId _) id).isSome = true
          rw [isSome_lookupA_updateA]
          exact this
        · intro a1 a2 id hl1 hl2
          exact ih.2 a1 a2 id hl1 hl2
    | relay conn tgtOpt data => exact ih
    | disconnect conn alive =>
      rcases hh : lookupA s1.host_rooms (addrOf conn) with _ | rid
      · rcases hrc : lookupA s1.relay_clients (addrOf conn) with _ | rid2
        · have hs' : (disconnectOp alive s1 conn (addrOf conn)).1
              = { rooms := s1.rooms, host_rooms := s1.host_rooms,
                  relay_clients := s1.relay_clients } := by
            simp [disconnectOp, hh, hrc]
          rw [hs']
          exact ⟨fun a id hl => ih.1 a id hl, fun a1 a2 id hl1 hl2 => ih.2 a1 a2 id hl1 hl2⟩
        · rcases hroom : lookupA s1.rooms rid2 with _ | room
          · have hs' : (disconnectOp alive s1 conn (addrOf conn)).1
                = { rooms := s1.rooms, host_rooms := s1.host_rooms,
                    relay_clients := eraseA s1.relay_clients (addrOf conn) } := by
              simp [disconnectOp, hh, hrc, hroom]
            rw [hs']
            exact ⟨fun a id hl => ih.1 a id hl, fun a1 a2 id hl1 hl2 => ih.2 a1 a2 id hl1 hl2⟩
          · have hs' : (disconnectOp alive s1 conn (addrOf conn)).1
                = { rooms := s1.rooms, host_rooms := s1.host_rooms,
                    relay_clients := eraseA s1.relay_clients (addrOf conn) } := by
              simp [disconnectOp, hh, hrc, hroom]
            rw [hs']
            exact ⟨fun a id hl => ih.1 a id hl, fun a1 a2 id hl1 hl2 => ih.2 a1 a2 id hl1 hl2⟩
      · have hfields : (disconnectOp alive s1 conn (addrOf conn)).1.rooms
              = eraseA s1.rooms rid
            ∧ (disconnectOp alive s1 conn (addrOf conn)).1.host_rooms
              = eraseA s1.host_rooms (addrOf conn) := by
          rcases hrc : lookupA s1.relay_clients (addrOf conn) with _ | rid2
          · simp [disconnectOp, hh, hrc]
          · rcases hroom : lookupA (eraseA s1.rooms rid) rid2 with _ | room
            · simp [disconnectOp, hh, hrc, hroom]
            · simp [disconnectOp, hh, hrc, hroom]
        constructor
        · intro a id hl
          rw [hfields.2] at hl
          rw [hfields.1]
          have hane : ¬ addrOf conn = a := by
            intro he
            rw [← he, lookupA_eraseA_self] at hl
            cases hl
          rw [lookupA_eraseA_ne _ hane] at hl
          have hidne : id ≠ rid := by
            intro he
            exact hane (ih.2 (addrOf conn) a id (by rw [hh, he]) hl)
          rw [lookupA_eraseA_ne _ (Ne.symm hidne)]
          exact ih.1 a id hl
        · intro a1 a2 id hl1 hl2
          rw [hfields.2] at hl1 hl2
          have hane1 : ¬ addrOf conn = a1 := by
            intro he
            rw [← he, lookupA_eraseA_self] at hl1
            cases hl1
          have hane2 : ¬ addrOf conn = a2 := by
            intro he
            rw [← he, lookupA_eraseA_self] at hl2
            cases hl2
          rw [lookupA_eraseA_ne _ hane1] at hl1
          rw [lookupA_eraseA_ne _ hane2] at hl2
          exact ih.2 a1 a2 id hl1 hl2

/-- Claim C3 counterexample: host 1 opens room 7, connection 2 binds as a
relay client of it, then the host disconnects.  The resulting quiescent,
reachable state still holds `relay_clients[2] = 7` although room 7 no
longer exists — the invariant is broken durably, not just transiently
under the teardown lock. -/
theorem C3_counterexample :
    MReachable addrId c3s3
    ∧ lookupA c3s3.relay_clients 2 = some 7
    ∧ lookupA c3s3.rooms 7 = none := by
  refine ⟨?_, by decide, by decide⟩
  exact MReachable.step (MReachable.step (MReachable.step MReachable.init
    (MStep.host initMM 1 (fun _ => 7))) (MStep.addRelay c3s1 2 (some 1)))
    (MStep.disconnect c3s2 1 (fun _ => true))

/-- Claim C3 amended: in every reachable quiescent registry state, every
address in `host_rooms` (host_index) maps to a room present in `rooms`;
the corresponding property does *not* hold for `relay_clients`
(relay_index), whose entries dangle after their room's host disconnects
and are only removed when the relay client itself disconnects. -/
theorem C3_host_index_valid (addrOf : Nat → Nat) (s : MM) (h : MReachable addrOf s) :
    hostRoomsValid s :=
  (host_index_invariant addrOf s h).1

/-- Claim C3 amended witness: in the reachable state where connection 1
hosts room 7, `host_rooms[1] = 7` and room 7 indeed exists. -/
theorem C3_host_index_valid_witness :
    (lookupA c3s1.rooms 7).isSome = true :=
  C3_host_index_valid addrId c3s1
    (MReachable.step MReachable.init (MStep.host initMM 1 (fun _ => 7))) 1 7 (by decide)

/-! ## Claim C7 — free-room-id search -/

/-- Claim C7: the code contradicts the claim (and its own doc comment):
`for _ in 1..50` performs only 49 draws.  With room 0 occupied, an RNG
stream whose first 49 draws are 0 and whose 50th draw (index 49) is the
free id 1, `find_free_room_id` reports failure even though the 50th draw
the claim promises would have found id 1 free. -/
theorem C7_forty_nine_draws :
    find_free_room_id c7rooms c7draws = none
    ∧ c7draws 49 % (MAX_ROOM_ID + 1) = 1
    ∧ lookupA c7rooms.rooms 1 = none := by
  refine ⟨by decide, by decide, by decide⟩

/-! ## Claim C4 — invalid tags do not tear the connection down -/

/-- Claim C4 counterexample: a decoded `RoomId` packet is an unrecognized
tag at the broker (`incoming_packet` returns `Err(InvalidPacket)`), yet
the read loop goes on to read and dispatch the next frame — the connection
is not torn down and further packets are read. -/
theorem C4_counterexample :
    incomingPacketDispatch (Packet.roomId 0) = Except.error ()
    ∧ runLoop [some (Packet.roomId 0), some (Packet.getHost 5)]
        = [Packet.roomId 0, Packet.getHost 5] :=
  ⟨rfl, rfl⟩

/-- Claim C4 amended: only an undecodable frame is fatal (the loop stops
reading); a successfully decoded packet with an unrecognized tag yields
`Err(InvalidPacket)`, which the loop merely logs — no `Error` packet is
sent and the next frames are still read and dispatched — while errors of
the registry operations (here: `GetHost` on an absent room) are reported
back to the same connection as an `Error` packet without closing it. -/
theorem C4_decode_fatal_invalid_soft (addrOf : Nat → Nat) (p : Packet)
    (rest : List (Option Packet)) (s : MM) (conn roomId : Nat)
    (hp : incomingPacketDispatch p = Except.error ())
    (hroom : lookupA s.rooms roomId = none) :
    runLoop (none :: rest) = []
    ∧ runLoop (some p :: rest) = p :: runLoop rest
    ∧ joinOp addrOf s conn roomId
        = [(conn, errorPacket
            "No room found with the given ID. Check whether you spelled the ID correctly")] := by
  refine ⟨rfl, ?_, ?_⟩
  · simp [runLoop, hp]
  · simp [joinOp, hroom]

/-- Claim C4 amended witness: a `WallhackDHostWithCustomRoomId` frame (an
unrecognized tag at the broker) is dispatched and the loop continues, a
decode failure stops the loop, and a `GetHost` for room 7 in the empty
registry yields the room-not-found `Error` packet. -/
theorem C4_decode_fatal_invalid_soft_witness :
    runLoop [none] = []
    ∧ runLoop [some (Packet.wallhackDHostWithCustomRoomId 7)]
        = [Packet.wallhackDHostWithCustomRoomId 7]
    ∧ joinOp addrId initMM 4 7
        = [(4, errorPacket
            "No room found with the given ID. Check whether you spelled the ID correctly")] :=
  C4_decode_fatal_invalid_soft addrId (Packet.wallhackDHostWithCustomRoomId 7) [] initMM 4 7
    rfl rfl

/-! ## Claim C5 — explicit-id allocation with an id in use -/

/-- Claim C5 counterexample: with room 7 already hosted, a
`whrc_custom_id_host` request for id 7 fails and leaves `rooms` untouched
— but the registry state is *not* exactly as before: `allocate_peer_id`
ran before the in-use check and its peer registration is kept, so the peer
table has changed. -/
theorem C5_counterexample :
    (whrc_custom_id_host c5state 55 7).2.2 = false
    ∧ (whrc_custom_id_host c5state 55 7).2.1 = [RelayPacket.error RelayError.noFreeRooms]
    ∧ (whrc_custom_id_host c5state 55 7).1.rooms = c5state.rooms
    ∧ (whrc_custom_id_host c5state 55 7).1.peers ≠ c5state.peers := by
  refine ⟨by decide, by decide, by decide, by decide⟩

/-- Claim C5 amended: when the requested room id is already hosted (and a
peer ID is still free), `whrc_custom_id_host` fails — it sends
`Error(NoFreeRooms)` and bails "Room ID is in use" — leaving the room
registry (occupied ids, client lists, hosts) unchanged, but the peer-ID
allocation performed before the check is retained: the peer table is
mutated. -/
theorem C5_custom_id_in_use (s : RState) (addr roomId peerId : Nat) (peers1 : RPeers)
    (halloc : allocate_peer_id s.peers addr = some (peerId, peers1))
    (hinuse : (host_id s.rooms roomId).isSome = true) :
    whrc_custom_id_host s addr roomId
      = ({ peers := peers1, rooms := s.rooms },
         [RelayPacket.error RelayError.noFreeRooms], false) := by
  simp [whrc_custom_id_host, halloc, hinuse]

/-- Claim C5 amended witness: the concrete in-use request against
`c5state`, showing the failure envelope and the retained peer
registration. -/
theorem C5_custom_id_in_use_witness :
    whrc_custom_id_host c5state 55 7
      = ({ peers := { registered := [(1, 55), (0, 100)], nextId := 2, capacity := 16 },
           rooms := c5state.rooms },
         [RelayPacket.error RelayError.noFreeRooms], false) :=
  C5_custom_id_in_use c5state 55 7 1
    { registered := [(1, 55), (0, 100)], nextId := 2, capacity := 16 } (by decide) (by decide)

/-! ## Claim C8 — chunk-synchronization invariants -/

/-- Subset invariants of one synchronization session: the needed and
requested sets stay inside the advertised set, the downloaded set stays
inside the requested set, and the advertised set never changes. -/
theorem sync_subset_invariant (S : Finset (Int × Int)) (s : SyncState)
    (h : SyncReachable S s) :
    s.needed ⊆ s.server ∧ s.requested ⊆ s.server ∧ s.downloaded ⊆ s.requested
      ∧ s.server = S := by
  induction h with
  | init =>
    exact ⟨by simp [syncInit], by simp [syncInit], by simp [syncInit], rfl⟩
  | @step s1 s2 _ hstep ih =>
    obtain ⟨hn, hr, hd, hS⟩ := ih
    cases hstep with
    | tickSave hcard =>
      exact ⟨Finset.union_subset hn Finset.sdiff_subset, hr, hd, hS⟩
    | tickView v =>
      exact ⟨Finset.union_subset hn
        (Finset.Subset.trans Finset.sdiff_subset Finset.inter_subset_right), hr, hd, hS⟩
    | tickIdle => exact ⟨hn, hr, hd, hS⟩
    | drain =>
      exact ⟨Finset.empty_subset _, Finset.union_subset hr hn,
        Finset.Subset.trans hd Finset.subset_union_left, hS⟩
    | recvChunks ps hps =>
      exact ⟨hn, hr, Finset.union_subset hd hps, hS⟩

/-- The stage of a chunk never exceeds 3. -/
theorem syncRank_le_three (s : SyncState) (c : Int × Int) : syncRank s c ≤ 3 := by
  unfold syncRank
  by_cases h1 : c ∈ s.downloaded
  · simp [h1]
  · by_cases h2 : c ∈ s.requested
    · simp [h1, h2]
    · by_cases h3 : c ∈ s.needed
      · simp [h1, h2, h3]
      · simp [h1, h2, h3]

/-- Along every step of the session, the stage of every chunk coordinate
is non-decreasing: a chunk moves needed → requested → downloaded and never
backward. -/
theorem syncRank_mono (s s' : SyncState) (hstep : SyncStep s s') (c : Int × Int) :
    syncRank s c ≤ syncRank s' c := by
  cases hstep with
  | tickSave hcard =>
    by_cases hd : c ∈ s.downloaded
    · simp [syncRank, hd]
    · by_cases hr : c ∈ s.requested
      · simp [syncRank, hd, hr]
      · by_cases hn : c ∈ s.needed
        · simp [syncRank, hd, hr, hn, Finset.mem_union]
        · simp [syncRank, hd, hr, hn]
  | tickView v =>
    by_cases hd : c ∈ s.downloaded
    · simp [syncRank, hd]
    · by_cases hr : c ∈ s.requested
      · simp [syncRank, hd, hr]
      · by_cases hn : c ∈ s.needed
        · simp [syncRank, hd, hr, hn, Finset.mem_union]
        · simp [syncRank, hd, hr, hn]
  | tickIdle => exact Nat.le_refl _
  | drain =>
    by_cases hd : c ∈ s.downloaded
    · simp [syncRank, hd]
    · by_cases hr : c ∈ s.requested
      · simp [syncRank, hd, hr, Finset.mem_union]
      · by_cases hn : c ∈ s.needed
        · simp [syncRank, hd, hr, hn, Finset.mem_union]
        · simp [syncRank, hd, hr, hn, Finset.mem_union]
  | recvChunks ps hps =>
    by_cases hp : c ∈ ps
    · have h3 : syncRank { s with downloaded := s.downloaded ∪ ps } c = 3 := by
        simp [syncRank, Finset.mem_union, hp]
      rw [h3]
      exact syncRank_le_three s c
    · by_cases hd : c ∈ s.downloaded
      · simp [syncRank, hd, Finset.mem_union]
      · simp [syncRank, hd, hp, Finset.mem_union]

/-- Claim C8: throughout one chunk-synchronization session opened by a
single `ChunkPositions` message advertising the set `S` (no later
`ChunkPositions`), in every reachable state the requested set is a subset
of the advertised set, the advertised set is still `S`, the downloaded set
never exceeds `S.card = N` elements, and every further step moves each
chunk's stage (untracked → needed → requested → downloaded)
monotonically, never backward. -/
theorem C8_chunk_sync (S : Finset (Int × Int)) (s : SyncState) (h : SyncReachable S s) :
    s.requested ⊆ s.server
    ∧ s.server = S
    ∧ s.downloaded.card ≤ S.card
    ∧ ∀ s' : SyncState, SyncStep s s' → ∀ c : Int × Int, syncRank s c ≤ syncRank s' c := by
  obtain ⟨hn, hr, hd, hS⟩ := sync_subset_invariant S s h
  refine ⟨hr, hS, ?_, fun s' hstep c => syncRank_mono s s' hstep c⟩
  calc s.downloaded.card ≤ s.requested.card := Finset.card_le_card hd
    _ ≤ s.server.card := Finset.card_le_card hr
    _ = S.card := by rw [hS]

/-- Claim C8 witness: a full one-chunk session (advertise, view tick,
drain into a request, receive the chunk) — the downloaded set stays within
the advertised cardinality. -/
theorem C8_chunk_sync_witness : c8s3.downloaded.card ≤ c8S.card :=
  (C8_chunk_sync c8S c8s3
    (SyncReachable.step (SyncReachable.step (SyncReachable.step SyncReachable.init
      (SyncStep.tickView c8s0 c8S)) (SyncStep.drain c8s1))
      (SyncStep.recvChunks c8s2 c8S (by decide)))).2.2.1

/-! ## Claim C10 — the empty relayed payload is the relay-ready signal -/

/-- Claim C10: `Peer::next_packet` treats every `Relayed` packet with a
zero-length payload, from any origin address, as the relay-ready signal:
it broadcasts `Hello(nickname)` (a send with `to = None`) and never hands
the empty payload to `decode_payload` — so such a payload is never
delivered as peer-to-peer content and is indistinguishable from the
broker's own relay-ready acknowledgement. -/
theorem C10_empty_relayed (nickname : String) (sender : Nat) (payload : List Nat)
    (h : payload.length = 0) :
    handleRelayed nickname sender payload = PeerEffect.send none (ClPacket.hello nickname)
    ∧ ∀ q r, handleRelayed nickname sender payload ≠ PeerEffect.decodePayload q r := by
  constructor
  · simp [handleRelayed, h]
  · intro q r hne
    simp [handleRelayed, h] at hne

/-- Claim C10 witness: an empty payload relayed from the arbitrary
address 77 triggers the `Hello` broadcast. -/
theorem C10_empty_relayed_witness :
    handleRelayed "nick" 77 [] = PeerEffect.send none (ClPacket.hello "nick") :=
  (C10_empty_relayed "nick" 77 [] rfl).1

end NetCanv
